import Mathlib

/-!
Verification of the core business logic of the rental-shop application
(`app.py`): the amount-in-words formatter, the booking-conflict check,
the order mutation workflows, invoicing, and the availability API.

The Python code is shallowly embedded: the relational tables become lists
of records in a `DB` structure, each route handler becomes a pure function
from a `DB` (plus its form input) to a new `DB` together with its visible
outcome, and monetary amounts (Python floats used only with `+`) are
modelled as rationals.  Dates are modelled as integers (day numbers);
the source only compares them.
-/

namespace Neraa

/-! ## Amount-in-words formatter (app.py, `amount_in_words`) -/

/-- Lookup table `ones` from `amount_in_words`. -/
def ones : List String :=
  ["", "One", "Two", "Three", "Four", "Five", "Six", "Seven", "Eight", "Nine", "Ten",
   "Eleven", "Twelve", "Thirteen", "Fourteen", "Fifteen", "Sixteen", "Seventeen",
   "Eighteen", "Nineteen"]

/-- Lookup table `tens` from `amount_in_words`. -/
def tens : List String :=
  ["", "", "Twenty", "Thirty", "Forty", "Fifty", "Sixty", "Seventy", "Eighty", "Ninety"]

/-- Inner helper `convert_less_than_thousand` of `amount_in_words`. -/
def convert_less_than_thousand (n : Nat) : String :=
  if n = 0 then ""
  else if n < 20 then ones.getD n ""
  else if n < 100 then
    tens.getD (n / 10) "" ++ (if n % 10 ≠ 0 then " " ++ ones.getD (n % 10) "" else "")
  else
    ones.getD (n / 100) "" ++ " Hundred" ++
      (if n % 100 ≠ 0 then " " ++ convert_less_than_thousand (n % 100) else "")
termination_by n
decreasing_by
  have h : n % 100 < 100 := Nat.mod_lt _ (by omega)
  omega

/-- Inner helper `convert` of `amount_in_words` (Indian grouping:
Thousand, Lakh = 10^5, Crore = 10^7). -/
def convert (n : Nat) : String :=
  if n < 1000 then convert_less_than_thousand n
  else if n < 100000 then
    convert_less_than_thousand (n / 1000) ++ " Thousand" ++
      (if n % 1000 ≠ 0 then " " ++ convert_less_than_thousand (n % 1000) else "")
  else if n < 10000000 then
    convert_less_than_thousand (n / 100000) ++ " Lakh" ++
      (if n % 100000 ≠ 0 then " " ++ convert (n % 100000) else "")
  else
    convert (n / 10000000) ++ " Crore" ++
      (if n % 10000000 ≠ 0 then " " ++ convert (n % 10000000) else "")
termination_by n
decreasing_by
  · have h : n % 100000 < 100000 := Nat.mod_lt _ (by omega)
    omega
  · exact Nat.div_lt_self (by omega) (by omega)
  · have h : n % 10000000 < 10000000 := Nat.mod_lt _ (by omega)
    omega

/-- The function `amount_in_words` from app.py.  The argument is a Python
float; we model it as a rational.  Python checks `amount == 0` before the
`int(amount)` truncation, exactly as here.  `int()` truncates toward zero,
which on the non-negative amounts this system produces equals the floor. -/
def amount_in_words (amount : ℚ) : String :=
  if amount = 0 then "Zero Rupees Only"
  else convert (Int.toNat ⌊amount⌋) ++ " Rupees Only"

/-! Whitespace discipline of the formatter.  A string is `neat` when it is
nonempty and neither starts nor ends with a space. -/

/-- Nonempty, no leading space, no trailing space. -/
def neat (s : String) : Prop :=
  s.data ≠ [] ∧ s.data.head? ≠ some ' ' ∧ s.data.getLast? ≠ some ' '

instance (s : String) : Decidable (neat s) := by unfold neat; infer_instance

/-- No leading space and no trailing space (the empty string counts as trimmed). -/
def trimmed (s : String) : Prop :=
  s.data.head? ≠ some ' ' ∧ s.data.getLast? ≠ some ' '

instance (s : String) : Decidable (trimmed s) := by unfold trimmed; infer_instance

lemma neat.trimmed {s : String} (h : neat s) : trimmed s := ⟨h.2.1, h.2.2⟩

lemma string_eq_of_data {s t : String} (h : s.data = t.data) : s = t := by
  cases s; cases t; simp only at h; rw [h]

lemma neat_append {a b : String} (ha : neat a) (hb1 : b.data ≠ [])
    (hb2 : b.data.getLast? ≠ some ' ') : neat (a ++ b) := by
  refine ⟨?_, ?_, ?_⟩
  · simp only [String.data_append]
    intro h
    exact ha.1 (List.append_eq_nil.mp h).1
  · simp only [String.data_append]
    rw [List.head?_append_of_ne_nil _ ha.1]
    exact ha.2.1
  · simp only [String.data_append]
    rw [List.getLast?_append_of_ne_nil _ hb1]
    exact hb2

lemma space_block {b : String} (hb : neat b) :
    (" " ++ b).data ≠ [] ∧ (" " ++ b).data.getLast? ≠ some ' ' := by
  constructor
  · simp [String.data_append]
  · simp only [String.data_append]
    rw [List.getLast?_append_of_ne_nil _ hb.1]
    exact hb.2.2

/-- Appending a space-led block to a neat string keeps it neat. -/
lemma neat_append_space {a b : String} (ha : neat a) (hb : neat b) :
    neat (a ++ (" " ++ b)) :=
  neat_append ha (space_block hb).1 (space_block hb).2

lemma append_empty_string (a : String) : a ++ "" = a := by
  apply string_eq_of_data
  simp [String.data_append]

/-- Each nonempty `ones` entry is a neat word. -/
lemma neat_ones {n : Nat} (h1 : 1 ≤ n) (h2 : n < 20) : neat (ones.getD n "") := by
  interval_cases n <;> decide

/-- Each `tens` entry of index 2..9 is a neat word. -/
lemma neat_tens {n : Nat} (h1 : 2 ≤ n) (h2 : n ≤ 9) : neat (tens.getD n "") := by
  interval_cases n <;> decide

/-- For 1 ≤ n < 1000 the helper produces a neat string. -/
lemma neat_cltt : ∀ n : Nat, 1 ≤ n → n < 1000 → neat (convert_less_than_thousand n) := by
  intro n
  induction n using Nat.strong_induction_on with
  | _ n ih =>
    intro h1 h2
    rw [convert_less_than_thousand]
    rw [if_neg (by omega)]
    by_cases h20 : n < 20
    · rw [if_pos h20]
      exact neat_ones h1 h20
    · rw [if_neg h20]
      by_cases h100 : n < 100
      · rw [if_pos h100]
        have hten : neat (tens.getD (n / 10) "") := neat_tens (by omega) (by omega)
        by_cases hm : n % 10 ≠ 0
        · rw [if_pos hm]
          exact neat_append_space hten (neat_ones (by omega) (by omega))
        · rw [if_neg hm, append_empty_string]
          exact hten
      · rw [if_neg h100]
        have hhead : neat (ones.getD (n / 100) "" ++ " Hundred") := by
          refine neat_append (neat_ones (by omega) (by omega)) ?_ ?_ <;> decide
        by_cases hm : n % 100 ≠ 0
        · rw [if_pos hm]
          exact neat_append_space hhead (ih (n % 100) (by omega) (by omega) (by omega))
        · rw [if_neg hm, append_empty_string]
          exact hhead

/-- For every n ≥ 1, `convert n` is a neat string. -/
lemma neat_convert : ∀ n : Nat, 1 ≤ n → neat (convert n) := by
  intro n
  induction n using Nat.strong_induction_on with
  | _ n ih =>
    intro h1
    rw [convert]
    by_cases h3 : n < 1000
    · rw [if_pos h3]
      exact neat_cltt n h1 h3
    · rw [if_neg h3]
      by_cases h5 : n < 100000
      · rw [if_pos h5]
        have hhead : neat (convert_less_than_thousand (n / 1000) ++ " Thousand") := by
          refine neat_append (neat_cltt _ (by omega) (by omega)) ?_ ?_ <;> decide
        by_cases hm : n % 1000 ≠ 0
        · rw [if_pos hm]
          exact neat_append_space hhead (neat_cltt _ (by omega) (by omega))
        · rw [if_neg hm, append_empty_string]
          exact hhead
      · rw [if_neg h5]
        by_cases h7 : n < 10000000
        · rw [if_pos h7]
          have hhead : neat (convert_less_than_thousand (n / 100000) ++ " Lakh") := by
            refine neat_append (neat_cltt _ (by omega) (by omega)) ?_ ?_ <;> decide
          by_cases hm : n % 100000 ≠ 0
          · rw [if_pos hm]
            exact neat_append_space hhead (ih (n % 100000) (by omega) (by omega))
          · rw [if_neg hm, append_empty_string]
            exact hhead
        · rw [if_neg h7]
          have hhead : neat (convert (n / 10000000) ++ " Crore") := by
            refine neat_append (ih (n / 10000000) ?_ ?_) ?_ ?_
            · exact Nat.div_lt_self (by omega) (by omega)
            · have : 10000000 ≤ n := by omega
              have := Nat.div_le_div_right (c := 10000000) this
              simpa using Nat.one_le_div_iff (by omega) |>.mpr (by omega)
            · decide
            · decide
          by_cases hm : n % 10000000 ≠ 0
          · rw [if_pos hm]
            exact neat_append_space hhead (ih (n % 10000000) (by omega) (by omega))
          · rw [if_neg hm, append_empty_string]
            exact hhead

/-! ## Data model (the SQLAlchemy models of app.py)

Monetary columns are Python floats in the source; the application only
adds them, so they are modelled as rationals.  Date columns are modelled
as integers (the source only compares dates).  `status` is a free string
column, exactly as in the schema. -/

/-- Row of the `User` model (only the fields the specified logic reads). -/
structure User where
  id : Nat
  name : String
  role : String
deriving Repr, DecidableEq

/-- Row of the `Product` model. -/
structure Product where
  id : Nat
  product_code : String
  name : String
  rental_price : ℚ
  deposit_amount : ℚ
  is_active : Bool
deriving Repr, DecidableEq

/-- Row of the `Customer` model. -/
structure Customer where
  id : Nat
  name : String
  phone : String
  secondary_phone : String
  email : String
  address : String
deriving Repr, DecidableEq

/-- Row of the `Order` model. -/
structure Order where
  id : Nat
  transaction_id : String
  customer_id : Nat
  staff_id : Nat
  delivery_date : Int
  return_date : Int
  status : String
  total_amount : ℚ
  notes : String
deriving Repr, DecidableEq

/-- Row of the `OrderItem` model. -/
structure OrderItem where
  order_id : Nat
  product_id : Nat
  price : ℚ
deriving Repr, DecidableEq

/-- Row of the `OrderAccessory` model. -/
structure OrderAccessory where
  order_id : Nat
  accessory_name : String
  remarks : String
deriving Repr, DecidableEq

/-- Row of the `OrderExtraCharge` model. -/
structure OrderExtraCharge where
  order_id : Nat
  description : String
  amount : ℚ
  remarks : String
deriving Repr, DecidableEq

/-- Row of the `Invoice` model. -/
structure Invoice where
  invoice_number : String
  order_id : Nat
deriving Repr, DecidableEq

/-- The database: one list of rows per table. -/
structure DB where
  users : List User
  products : List Product
  customers : List Customer
  orders : List Order
  orderItems : List OrderItem
  accessories : List OrderAccessory
  extraCharges : List OrderExtraCharge
  invoices : List Invoice
deriving Repr, DecidableEq

/-! ## Shared queries -/

/-- `Product.query.get(pid)`: primary-key lookup. -/
def getProduct (db : DB) (pid : Nat) : Option Product :=
  db.products.find? (·.id == pid)

/-- Product code displayed in conflict messages.  (The Python would raise
an AttributeError if the product row were missing; the conflict branches
only reach this lookup when an order item references `pid`.) -/
def productCode (db : DB) (pid : Nat) : String :=
  match getProduct db pid with
  | some p => p.product_code
  | none => ""

/-- The status filter `Order.status.in_(['pending', 'approved'])`. -/
def isActiveStatus (s : String) : Bool :=
  s == "pending" || s == "approved"

/-- The three-clause date test of the duplicate-booking filter in
`create_order` (app.py lines 608-612), applied to an existing order row
against the requested delivery/return dates. -/
def datesClash (o : Order) (delivery_date return_date : Int) : Bool :=
  (decide (o.delivery_date ≤ delivery_date) && decide (o.return_date ≥ delivery_date))
  || (decide (o.delivery_date ≤ return_date) && decide (o.return_date ≥ return_date))
  || (decide (o.delivery_date ≥ delivery_date) && decide (o.return_date ≤ return_date))

/-- Row predicate of the conflict query: the OrderItem joined with its
Order satisfies the product, status and date filters. -/
def conflictRow (db : DB) (pid : Nat) (d r : Int) (it : OrderItem) : Bool :=
  it.product_id == pid &&
    db.orders.any fun o =>
      o.id == it.order_id && isActiveStatus o.status && datesClash o d r

/-- The conflict query
`db.session.query(OrderItem).join(Order).filter(...).first()`. -/
def findConflict (db : DB) (pid : Nat) (d r : Int) : Option OrderItem :=
  db.orderItems.find? (conflictRow db pid d r)

/-! ## Form input -/

/-- The order form fields consumed by `create_order`, `edit_order` and
`staff_edit_order`.  `product_ids` holds the non-empty entries of
`product_id[]` (the code skips falsy entries with `if pid:`).
`accessory_names` pairs each `accessory_name[]` entry with its remark
(the code pads missing remarks with an empty string).  Each entry of
`extra_charges` is a description, the parsed amount when the
`extra_amount[]` field was non-empty, and a remark; the code only inserts
rows whose description and amount fields are both non-empty. -/
structure OrderForm where
  customer_name : String
  customer_phone : String
  secondary_phone : String
  customer_email : String
  customer_address : String
  delivery_date : Int
  return_date : Int
  notes : String
  product_ids : List Nat
  accessory_names : List (String × String)
  extra_charges : List (String × Option ℚ × String)
deriving Repr, DecidableEq

/-! ## Pieces of the mutation workflows -/

/-- Fresh primary key assigned by `db.session.flush()` for a new customer. -/
def freshCustomerId (db : DB) : Nat :=
  (db.customers.map (·.id)).foldr max 0 + 1

/-- Fresh primary key assigned by `db.session.flush()` for a new order. -/
def freshOrderId (db : DB) : Nat :=
  (db.orders.map (·.id)).foldr max 0 + 1

/-- Customer upsert of `create_order`: look up by phone; update the
mutable fields of the first match, or insert a new row. -/
def upsertCustomer (db : DB) (f : OrderForm) : Nat × List Customer :=
  match db.customers.find? (·.phone == f.customer_phone) with
  | some c =>
      (c.id,
       db.customers.map fun c0 =>
         if c0.id == c.id then
           { c0 with
             name := f.customer_name
             secondary_phone := f.secondary_phone
             email := f.customer_email
             address := f.customer_address }
         else c0)
  | none =>
      let cid := freshCustomerId db
      (cid,
       db.customers ++
         [⟨cid, f.customer_name, f.customer_phone, f.secondary_phone,
           f.customer_email, f.customer_address⟩])

/-- The `OrderItem` rows inserted by the product loop: one per requested
id whose product row exists (`if product:`), with the price snapshotted
from `product.rental_price`. -/
def newItems (db : DB) (oid : Nat) (pids : List Nat) : List OrderItem :=
  pids.filterMap fun pid =>
    (getProduct db pid).map fun p => ⟨oid, p.id, p.rental_price⟩

/-- The running `total += product.rental_price` of the product loop. -/
def productsTotal (db : DB) (pids : List Nat) : ℚ :=
  pids.foldl
    (fun t pid =>
      match getProduct db pid with
      | some p => t + p.rental_price
      | none => t)
    0

/-- The `OrderAccessory` rows inserted by the accessory loop
(`if name:`). -/
def newAccessories (oid : Nat) (l : List (String × String)) : List OrderAccessory :=
  l.filterMap fun e =>
    if e.1 ≠ "" then some ⟨oid, e.1, e.2⟩ else none

/-- The `OrderExtraCharge` rows inserted by the extra-charge loop
(`if desc and extra_amounts[i]:`). -/
def newExtras (oid : Nat) (l : List (String × Option ℚ × String)) : List OrderExtraCharge :=
  l.filterMap fun e =>
    match e with
    | (desc, some amt, rem) => if desc ≠ "" then some ⟨oid, desc, amt, rem⟩ else none
    | (_, none, _) => none

/-- The running `total += float(extra_amounts[i])` of the extra-charge loop. -/
def extrasTotal (l : List (String × Option ℚ × String)) : ℚ :=
  l.foldl
    (fun t e =>
      match e with
      | (desc, some amt, _) => if desc ≠ "" then t + amt else t
      | (_, none, _) => t)
    0

/-- The function `generate_invoice_number`: INV- followed by the invoice
count plus one, zero-padded to five digits. -/
def generate_invoice_number (db : DB) : String :=
  let s := toString (db.invoices.length + 1)
  "INV-" ++ String.mk (List.replicate (5 - s.length) '0') ++ s

/-! ## create_order (app.py lines 585-717, POST branch) -/

/-- Outcome visible to the caller of `create_order`: either the order id
of the created order, or the conflict flash message followed by a
redirect back to the form. -/
inductive CreateResult where
  | ok (oid : Nat)
  | conflict (msg : String)
deriving Repr, DecidableEq

/-- The POST branch of `create_order`.  First the duplicate-booking loop
over every requested product; on the first conflict the handler flashes
and redirects with nothing committed.  Otherwise: customer upsert by
phone, order row in status `pending`, order items with snapshotted
prices, accessories, extra charges, the running total, and an invoice
row, committed together.  `txid` stands for the generated
`transaction_id`. -/
def create_order (db : DB) (f : OrderForm) (staff_id : Nat) (txid : String) :
    DB × CreateResult :=
  match f.product_ids.find?
      (fun pid => (findConflict db pid f.delivery_date f.return_date).isSome) with
  | some pid =>
      (db, .conflict ("Product " ++ productCode db pid ++
        " is already booked for these dates!"))
  | none =>
      let up := upsertCustomer db f
      let oid := freshOrderId db
      let total := productsTotal db f.product_ids + extrasTotal f.extra_charges
      let order : Order :=
        ⟨oid, txid, up.1, staff_id, f.delivery_date, f.return_date, "pending",
         total, f.notes⟩
      ({ db with
          customers := up.2
          orders := db.orders ++ [order]
          orderItems := db.orderItems ++ newItems db oid f.product_ids
          accessories := db.accessories ++ newAccessories oid f.accessory_names
          extraCharges := db.extraCharges ++ newExtras oid f.extra_charges
          invoices := db.invoices ++ [⟨generate_invoice_number db, oid⟩] },
       .ok oid)

/-! ## edit_order (admin, app.py lines 501-582, POST branch) -/

/-- The POST branch of the admin `edit_order`: update the customer row of
the order (including the phone), the dates and notes, delete and
re-insert the child rows from the form, and store the recomputed total.
There is no availability check on this path.  A missing order id is a
404 with no write. -/
def edit_order (db : DB) (oid : Nat) (f : OrderForm) : DB :=
  match db.orders.find? (·.id == oid) with
  | none => db
  | some o =>
      let total := productsTotal db f.product_ids + extrasTotal f.extra_charges
      { db with
        customers := db.customers.map fun c =>
          if c.id == o.customer_id then
            { c with
              name := f.customer_name
              phone := f.customer_phone
              secondary_phone := f.secondary_phone
              email := f.customer_email
              address := f.customer_address }
          else c
        orders := db.orders.map fun o0 =>
          if o0.id == oid then
            { o0 with
              delivery_date := f.delivery_date
              return_date := f.return_date
              notes := f.notes
              total_amount := total }
          else o0
        orderItems := (db.orderItems.filter fun it => !(it.order_id == oid)) ++
          newItems db oid f.product_ids
        accessories := (db.accessories.filter fun a => !(a.order_id == oid)) ++
          newAccessories oid f.accessory_names
        extraCharges := (db.extraCharges.filter fun e => !(e.order_id == oid)) ++
          newExtras oid f.extra_charges }

/-- Role of the user row referenced by an order (`order.staff.role`). -/
def staffRole (db : DB) (uid : Nat) : String :=
  match db.users.find? (·.id == uid) with
  | some u => u.role
  | none => ""

/-! ## staff_edit_order (app.py lines 817-911, POST branch) -/

/-- The POST branch of `staff_edit_order`: permission guards (own order,
not an admin order, still pending), then the same replace-children
update as `edit_order`.  Each failed guard redirects with no write. -/
def staff_edit_order (db : DB) (oid : Nat) (uid : Nat) (f : OrderForm) : DB :=
  match db.orders.find? (·.id == oid) with
  | none => db
  | some o =>
      if o.staff_id ≠ uid then db
      else if staffRole db o.staff_id == "admin" then db
      else if o.status ≠ "pending" then db
      else edit_order db oid f

/-! ## add_products_to_order (app.py lines 720-782, POST branch) -/

/-- One pass of the product loop of `add_products_to_order`, threading
the session state (queries in the loop see rows added by earlier
iterations via autoflush) and the flash messages.  A conflict with a
different order flashes and skips the product with `continue`; a product
already on this order is skipped silently; otherwise the item is added
and the order total is bumped by the snapshotted price.  The unguarded
`Product.query.get` of the add branch raises in Python when the product
row is missing; that case is returned as `none` (nothing committed). -/
def addProductsLoop (oid : Nat) (d r : Int) :
    List Nat → DB → List String → Option (DB × List String)
  | [], db, msgs => some (db, msgs ++ ["Products added successfully"])
  | pid :: rest, db, msgs =>
      let conflictStep : Option (DB × List String) :=
        if (db.orderItems.find? fun it =>
              it.order_id == oid && it.product_id == pid).isSome then
          addProductsLoop oid d r rest db msgs
        else
          match getProduct db pid with
          | none => none
          | some p =>
              addProductsLoop oid d r rest
                { db with
                  orderItems := db.orderItems ++ [⟨oid, p.id, p.rental_price⟩]
                  orders := db.orders.map fun o =>
                    if o.id == oid then
                      { o with total_amount := o.total_amount + p.rental_price }
                    else o }
                msgs
      match findConflict db pid d r with
      | some existing =>
          if existing.order_id ≠ oid then
            addProductsLoop oid d r rest db
              (msgs ++ ["Product " ++ productCode db pid ++ " is already booked!"])
          else conflictStep
      | none => conflictStep

/-- The `add_products_to_order` handler: permission guards, then the
product loop over the posted ids, using the dates of the target order. -/
def add_products_to_order (db : DB) (oid : Nat) (uid : Nat) (urole : String)
    (pids : List Nat) : Option (DB × List String) :=
  match db.orders.find? (·.id == oid) with
  | none => some (db, [])
  | some o =>
      if urole == "staff" && o.staff_id != uid then
        some (db, ["You can only modify orders you created!"])
      else if urole == "staff" && staffRole db o.staff_id == "admin" then
        some (db, ["You cannot modify admin orders!"])
      else if o.status != "pending" then
        some (db, ["Cannot modify approved orders"])
      else
        addProductsLoop oid o.delivery_date o.return_date pids db []

/-! ## edit_product (admin, app.py lines 426-449, POST branch) -/

/-- The POST branch of `edit_product`: overwrite the code, name, price
and deposit of the product row.  No other table is touched. -/
def edit_product (db : DB) (pid : Nat) (code name : String)
    (rental_price deposit_amount : ℚ) : DB :=
  match db.products.find? (·.id == pid) with
  | none => db
  | some _ =>
      { db with
        products := db.products.map fun p =>
          if p.id == pid then
            { p with
              product_code := code
              name := name
              rental_price := rental_price
              deposit_amount := deposit_amount }
          else p }

/-! ## view_invoice (app.py lines 988-1008) -/

/-- The `view_invoice` handler: reuse the existing invoice row of the
order, or lazily create one.  Returns the invoice number shown. -/
def view_invoice (db : DB) (oid : Nat) : DB × Option String :=
  match db.orders.find? (·.id == oid) with
  | none => (db, none)
  | some _ =>
      match db.invoices.find? (·.order_id == oid) with
      | some inv => (db, some inv.invoice_number)
      | none =>
          let inv : Invoice := ⟨generate_invoice_number db, oid⟩
          ({ db with invoices := db.invoices ++ [inv] }, some inv.invoice_number)

/-! ## /api/check-availability (app.py lines 914-946) -/

/-- The `check_availability` endpoint.  The request carries only a
product code; the booking query joins orders with order items and
filters on the product and the active statuses, with no date condition.
Returns `none` when the product code is unknown, otherwise
`is_available` (the booking list is empty) and the ids of the booking
orders, one per joined row. -/
def check_availability (db : DB) (product_code : String) : Option (Bool × List Nat) :=
  match db.products.find? (·.product_code == product_code) with
  | none => none
  | some p =>
      let bookings := db.orders.flatMap fun o =>
        if isActiveStatus o.status then
          (db.orderItems.filter fun it =>
            it.order_id == o.id && it.product_id == p.id).map fun _ => o.id
        else []
      some (bookings.length == 0, bookings)

/-! ## Derived read views used by the statements -/

/-- Line items of one order. -/
def itemsFor (db : DB) (oid : Nat) : List OrderItem :=
  db.orderItems.filter (·.order_id == oid)

/-- Extra charges of one order. -/
def extrasFor (db : DB) (oid : Nat) : List OrderExtraCharge :=
  db.extraCharges.filter (·.order_id == oid)

/-- Invoices of one order. -/
def invoicesFor (db : DB) (oid : Nat) : List Invoice :=
  db.invoices.filter (·.order_id == oid)

/-- Total stored on an order row, when the order exists. -/
def storedTotal (db : DB) (oid : Nat) : Option ℚ :=
  (db.orders.find? (·.id == oid)).map (·.total_amount)

/-- The documented invariant: the stored total of the order equals the
sum of its line-item prices plus the sum of its extra-charge amounts. -/
def totalInvariant (db : DB) (oid : Nat) : Prop :=
  storedTotal db oid =
    some (((itemsFor db oid).map (·.price)).sum +
          ((extrasFor db oid).map (·.amount)).sum)

instance (db : DB) (oid : Nat) : Decidable (totalInvariant db oid) := by
  unfold totalInvariant; infer_instance

/-- Referential integrity of child rows: every order item and extra
charge points at an existing order row. -/
def childrenWF (db : DB) : Prop :=
  (∀ it ∈ db.orderItems, ∃ o ∈ db.orders, o.id = it.order_id) ∧
  (∀ e ∈ db.extraCharges, ∃ o ∈ db.orders, o.id = e.order_id)

instance (db : DB) : Decidable (childrenWF db) := by
  unfold childrenWF; infer_instance

/-! ## Helper lemmas for the formatter claims -/

lemma amount_in_words_pos (q : ℚ) (hq : q ≠ 0) :
    amount_in_words q = convert (Int.toNat ⌊q⌋) ++ " Rupees Only" := by
  rw [amount_in_words, if_neg hq]

lemma convert_100 : convert 100 = "One Hundred" := by
  rw [convert, if_pos (by norm_num), convert_less_than_thousand]
  norm_num [ones]
  decide

lemma convert_500 : convert_less_than_thousand 500 = "Five Hundred" := by
  rw [convert_less_than_thousand]
  norm_num [ones]
  decide

lemma convert_1500 : convert 1500 = "One Thousand Five Hundred" := by
  rw [convert]
  norm_num
  rw [convert_less_than_thousand]
  norm_num [ones, convert_500]
  decide

lemma convert_100000 : convert 100000 = "One Lakh" := by
  rw [convert]
  norm_num
  rw [convert_less_than_thousand]
  norm_num [ones]
  decide

/-! ## C7 -/

/-- C7: the amount-in-words formatter meets the four reference values:
0 ↦ Zero Rupees Only, 100 ↦ One Hundred Rupees Only, 1500 ↦ One Thousand
Five Hundred Rupees Only, 100000 ↦ One Lakh Rupees Only. -/
theorem C7_reference_values :
    amount_in_words 0 = "Zero Rupees Only" ∧
    amount_in_words 100 = "One Hundred Rupees Only" ∧
    amount_in_words 1500 = "One Thousand Five Hundred Rupees Only" ∧
    amount_in_words 100000 = "One Lakh Rupees Only" := by
  refine ⟨by rw [amount_in_words, if_pos rfl], ?_, ?_, ?_⟩
  · rw [amount_in_words_pos _ (by norm_num), show ⌊(100 : ℚ)⌋ = 100 by norm_num,
      show Int.toNat 100 = 100 from rfl, convert_100]
    decide
  · rw [amount_in_words_pos _ (by norm_num), show ⌊(1500 : ℚ)⌋ = 1500 by norm_num,
      show Int.toNat 1500 = 1500 from rfl, convert_1500]
    decide
  · rw [amount_in_words_pos _ (by norm_num), show ⌊(100000 : ℚ)⌋ = 100000 by norm_num,
      show Int.toNat 100000 = 100000 from rfl, convert_100000]
    decide

/-! ## C8 -/

lemma amount_in_words_half : amount_in_words (1/2) = " Rupees Only" := by
  rw [amount_in_words_pos _ (by norm_num), show ⌊(1/2 : ℚ)⌋ = 0 by norm_num,
    show Int.toNat 0 = 0 from rfl, convert, if_pos (by norm_num),
    convert_less_than_thousand, if_pos rfl]
  decide

/-- C8 counterexample: the input 1/2 is non-negative, yet the output of
the formatter is the string " Rupees Only", which has a leading space.
The `amount == 0` early return happens before the `int(amount)`
truncation, so amounts strictly between 0 and 1 fall through to
`convert(0) = ""` plus the suffix. -/
theorem C8_counterexample :
    (0 : ℚ) ≤ 1/2 ∧ amount_in_words (1/2) = " Rupees Only" ∧
    ¬ trimmed (amount_in_words (1/2)) := by
  refine ⟨by norm_num, amount_in_words_half, ?_⟩
  rw [amount_in_words_half]
  decide

/-- C8 (amended): for amounts that are zero or at least one rupee, the
formatter depends only on the truncated integer number of rupees, its
output has no leading or trailing whitespace, and it ends in
"Rupees Only"; and the hundreds are rendered with the
"X Hundred [remainder]" pattern.  (For amounts strictly between 0 and 1
the output is " Rupees Only", which starts with a space — see the
counterexample.) -/
theorem C8_truncation_and_whitespace :
    (∀ q : ℚ, q = 0 ∨ 1 ≤ ⌊q⌋ →
      amount_in_words q = amount_in_words ((Int.toNat ⌊q⌋ : ℚ)) ∧
      trimmed (amount_in_words q) ∧
      ∃ t, amount_in_words q = t ++ "Rupees Only") ∧
    (∀ m : Nat, 100 ≤ m → m < 1000 →
      convert_less_than_thousand m =
        ones.getD (m / 100) "" ++ " Hundred" ++
          (if m % 100 ≠ 0 then " " ++ convert_less_than_thousand (m % 100) else "")) := by
  constructor
  · intro q hq
    rcases hq with hq | hq
    · subst hq
      refine ⟨by norm_num, ?_, "Zero ", ?_⟩
      · rw [amount_in_words, if_pos rfl]
        decide
      · rw [amount_in_words, if_pos rfl]
        decide
    · have hq1 : (1 : ℚ) ≤ q := by
        calc (1 : ℚ) = ((1 : ℤ) : ℚ) := by norm_num
        _ ≤ ((⌊q⌋ : ℤ) : ℚ) := by exact_mod_cast hq
        _ ≤ q := Int.floor_le q
      have hq0 : q ≠ 0 := by intro h; rw [h] at hq1; norm_num at hq1
      have hn1 : 1 ≤ Int.toNat ⌊q⌋ := by omega
      have hfloor : Int.toNat ⌊q⌋ = Int.toNat ⌊((Int.toNat ⌊q⌋ : ℚ))⌋ := by
        rw [Int.floor_natCast, Int.toNat_natCast]
      have hcast0 : ((Int.toNat ⌊q⌋ : ℚ)) ≠ 0 := by
        exact_mod_cast Nat.one_le_iff_ne_zero.mp hn1
      refine ⟨?_, ?_, convert (Int.toNat ⌊q⌋) ++ " ", ?_⟩
      · rw [amount_in_words_pos _ hq0, amount_in_words_pos _ hcast0, ← hfloor]
      · rw [amount_in_words_pos _ hq0]
        exact (neat_append (neat_convert _ hn1) (by decide) (by decide)).trimmed
      · rw [amount_in_words_pos _ hq0]
        apply string_eq_of_data
        simp only [String.data_append, List.append_assoc, List.append_cancel_left_eq]
        decide
  · intro m h1 h2
    rw [convert_less_than_thousand, if_neg (by omega), if_neg (by omega),
      if_neg (by omega)]

/-- Witness for the amended C8 at the concrete amount 3/2 (truncated to
one rupee) and at 150 for the hundreds pattern. -/
theorem C8_truncation_and_whitespace_witness :
    (amount_in_words (3/2) = amount_in_words ((Int.toNat ⌊(3/2 : ℚ)⌋ : ℚ)) ∧
     trimmed (amount_in_words (3/2)) ∧
     ∃ t, amount_in_words (3/2) = t ++ "Rupees Only") ∧
    convert_less_than_thousand 150 =
      ones.getD 1 "" ++ " Hundred" ++ (" " ++ convert_less_than_thousand 50) := by
  constructor
  · exact C8_truncation_and_whitespace.1 (3/2) (Or.inr (by norm_num))
  · have h := C8_truncation_and_whitespace.2 150 (by norm_num) (by norm_num)
    rw [h]
    norm_num

/-! ## C10 -/

/-- C10: the /api/check-availability endpoint takes no dates (its input
is only a product code) and reports available exactly when no pending or
approved order holds a line item for the product, whatever the dates of
those orders are. -/
theorem C10_check_availability_ignores_dates (db : DB) (code : String) (p : Product)
    (avail : Bool) (books : List Nat)
    (hp : db.products.find? (·.product_code == code) = some p)
    (hres : check_availability db code = some (avail, books)) :
    avail = true ↔
      ¬ ∃ o ∈ db.orders, ∃ it ∈ db.orderItems,
        (o.status = "pending" ∨ o.status = "approved") ∧
        it.order_id = o.id ∧ it.product_id = p.id := by
  unfold check_availability at hres
  rw [hp] at hres
  rw [Option.some_inj, Prod.mk.injEq] at hres
  obtain ⟨havail, hbooks⟩ := hres
  have hkey : (db.orders.flatMap fun o =>
      if isActiveStatus o.status then
        (db.orderItems.filter fun it =>
          it.order_id == o.id && it.product_id == p.id).map fun _ => o.id
      else []) = [] ↔
      ¬ ∃ o ∈ db.orders, ∃ it ∈ db.orderItems,
        (o.status = "pending" ∨ o.status = "approved") ∧
        it.order_id = o.id ∧ it.product_id = p.id := by
    rw [List.flatMap_eq_nil_iff]
    constructor
    · rintro h ⟨o, ho, it, hit, hst, h1, h2⟩
      have hnil := h o ho
      rw [if_pos (by simp only [isActiveStatus, Bool.or_eq_true, beq_iff_eq]; tauto)]
        at hnil
      rw [List.map_eq_nil_iff, List.filter_eq_nil_iff] at hnil
      exact hnil it hit (by simp [h1, h2])
    · intro h o ho
      by_cases hact : isActiveStatus o.status
      · rw [if_pos hact]
        rw [List.map_eq_nil_iff, List.filter_eq_nil_iff]
        intro it hit hpred
        simp only [Bool.and_eq_true, beq_iff_eq] at hpred
        exact h ⟨o, ho, it, hit,
          by simpa [isActiveStatus] using hact, hpred.1, hpred.2⟩
      · rw [if_neg hact]
  rw [← havail, beq_iff_eq, List.length_eq_zero, hkey]

/-- Concrete database for the C10 witness: one product, one pending
order far in the past holding it. -/
def db10 : DB where
  users := [⟨1, "S", "staff"⟩]
  products := [⟨1, "P1", "Lehenga", 0, 0, true⟩]
  customers := [⟨1, "C", "111", "", "", ""⟩]
  orders := [⟨1, "TX1", 1, 1, 0, 10, "pending", 0, ""⟩]
  orderItems := [⟨1, 1, 0⟩]
  accessories := []
  extraCharges := []
  invoices := []

/-- Witness for C10 at a concrete database: the endpoint reports the
product unavailable (one pending order holds it). -/
theorem C10_check_availability_ignores_dates_witness :
    false = true ↔
      ¬ ∃ o ∈ db10.orders, ∃ it ∈ db10.orderItems,
        (o.status = "pending" ∨ o.status = "approved") ∧
        it.order_id = o.id ∧ it.product_id = (⟨1, "P1", "Lehenga", 0, 0, true⟩ : Product).id :=
  C10_check_availability_ignores_dates db10 "P1" ⟨1, "P1", "Lehenga", 0, 0, true⟩
    false [1] (by decide) (by decide)

/-! ## C9 -/

/-- C9: viewing an invoice is idempotent.  For an existing order, the
second view returns the same invoice number and leaves the database
untouched; when an invoice already exists it is reused (no write at
all); and after one view the order has at most one invoice row (exactly
one when it had none). -/
lemma view_invoice_found {db : DB} {oid : Nat} {o : Order} {inv : Invoice}
    (ho : db.orders.find? (·.id == oid) = some o)
    (hinv : db.invoices.find? (·.order_id == oid) = some inv) :
    view_invoice db oid = (db, some inv.invoice_number) := by
  unfold view_invoice
  rw [ho, hinv]

lemma view_invoice_missing {db : DB} {oid : Nat} {o : Order}
    (ho : db.orders.find? (·.id == oid) = some o)
    (hinv : db.invoices.find? (·.order_id == oid) = none) :
    view_invoice db oid =
      ({ db with invoices := db.invoices ++ [⟨generate_invoice_number db, oid⟩] },
       some (generate_invoice_number db)) := by
  unfold view_invoice
  rw [ho, hinv]

theorem C9_view_invoice_idempotent (db : DB) (oid : Nat)
    (horder : (db.orders.find? (·.id == oid)).isSome) :
    (view_invoice (view_invoice db oid).1 oid).2 = (view_invoice db oid).2 ∧
    (view_invoice (view_invoice db oid).1 oid).1 = (view_invoice db oid).1 ∧
    ((db.invoices.find? (·.order_id == oid)).isSome → (view_invoice db oid).1 = db) ∧
    (invoicesFor (view_invoice db oid).1 oid).length ≤
      max 1 (invoicesFor db oid).length := by
  obtain ⟨o, ho⟩ := Option.isSome_iff_exists.mp horder
  cases hfind : db.invoices.find? (·.order_id == oid) with
  | some inv =>
      have h1 := view_invoice_found ho hfind
      rw [h1]
      exact ⟨by rw [view_invoice_found ho hfind], by rw [view_invoice_found ho hfind],
        fun _ => rfl, by simp⟩
  | none =>
      have h1 := view_invoice_missing ho hfind
      rw [h1]
      set db1 : DB :=
        { db with invoices := db.invoices ++ [⟨generate_invoice_number db, oid⟩] } with hdb1
      have ho1 : db1.orders.find? (·.id == oid) = some o := ho
      have hinv1 : db1.invoices.find? (·.order_id == oid) =
          some ⟨generate_invoice_number db, oid⟩ := by
        show (db.invoices ++ [(⟨generate_invoice_number db, oid⟩ : Invoice)]).find? _ =
          _
        rw [List.find?_append, hfind]
        simp
      have h2 := view_invoice_found ho1 hinv1
      rw [h2]
      refine ⟨rfl, rfl, fun h => absurd h (by simp), ?_⟩
      have hfilter : db.invoices.filter (·.order_id == oid) = [] :=
        List.filter_eq_nil_iff.mpr (List.find?_eq_none.mp hfind)
      show ((db.invoices ++ [(⟨generate_invoice_number db, oid⟩ : Invoice)]).filter
        (·.order_id == oid)).length ≤ _
      rw [List.filter_append, hfilter]
      simp

/-- Witness for C9 at a concrete database with an order and no invoice
yet. -/
theorem C9_view_invoice_idempotent_witness :
    (view_invoice (view_invoice db10 1).1 1).2 = (view_invoice db10 1).2 ∧
    (view_invoice (view_invoice db10 1).1 1).1 = (view_invoice db10 1).1 ∧
    ((db10.invoices.find? (·.order_id == 1)).isSome → (view_invoice db10 1).1 = db10) ∧
    (invoicesFor (view_invoice db10 1).1 1).length ≤
      max 1 (invoicesFor db10 1).length :=
  C9_view_invoice_idempotent db10 1 (by decide)


/-! ## Helper lemmas about create_order -/

lemma le_foldr_max {l : List Nat} {a : Nat} (h : a ∈ l) : a ≤ l.foldr max 0 := by
  induction l with
  | nil => cases h
  | cons b t ih =>
      rcases List.mem_cons.mp h with rfl | h2
      · exact le_max_left _ _
      · exact (ih h2).trans (le_max_right _ _)

/-- Every existing order id is below the id the flush assigns. -/
lemma freshOrderId_gt {db : DB} {o : Order} (h : o ∈ db.orders) :
    o.id < freshOrderId db :=
  Nat.lt_succ_of_le (le_foldr_max (List.mem_map_of_mem _ h))

/-- No existing order row carries the fresh id. -/
lemma find?_freshOrderId (db : DB) :
    db.orders.find? (·.id == freshOrderId db) = none :=
  List.find?_eq_none.mpr fun o ho => by
    simp only [beq_iff_eq]
    exact Nat.ne_of_lt (freshOrderId_gt ho)

/-- Shape of `create_order` when no requested product conflicts. -/
lemma create_order_success {db : DB} {f : OrderForm} {sid : Nat} {tx : String}
    (h : ∀ pid ∈ f.product_ids,
      findConflict db pid f.delivery_date f.return_date = none) :
    create_order db f sid tx =
      ({ db with
          customers := (upsertCustomer db f).2
          orders := db.orders ++
            [⟨freshOrderId db, tx, (upsertCustomer db f).1, sid, f.delivery_date,
              f.return_date, "pending",
              productsTotal db f.product_ids + extrasTotal f.extra_charges, f.notes⟩]
          orderItems := db.orderItems ++ newItems db (freshOrderId db) f.product_ids
          accessories := db.accessories ++
            newAccessories (freshOrderId db) f.accessory_names
          extraCharges := db.extraCharges ++
            newExtras (freshOrderId db) f.extra_charges
          invoices := db.invoices ++ [⟨generate_invoice_number db, freshOrderId db⟩] },
       .ok (freshOrderId db)) := by
  unfold create_order
  rw [List.find?_eq_none.mpr (fun pid hm => by simp [h pid hm])]

/-- Shape of `create_order` when some requested product conflicts. -/
lemma create_order_conflict {db : DB} {f : OrderForm} {sid : Nat} {tx : String}
    {pid : Nat} (hmem : pid ∈ f.product_ids)
    (hc : (findConflict db pid f.delivery_date f.return_date).isSome) :
    (create_order db f sid tx).1 = db ∧
    ∃ m, (create_order db f sid tx).2 = .conflict m := by
  have hs : (f.product_ids.find? fun q =>
      (findConflict db q f.delivery_date f.return_date).isSome).isSome :=
    List.find?_isSome.mpr ⟨pid, hmem, hc⟩
  obtain ⟨q, hq⟩ := Option.isSome_iff_exists.mp hs
  unfold create_order
  rw [hq]
  exact ⟨rfl, _, rfl⟩

/-- Each inserted line item snapshots the current price of an existing
product row. -/
lemma newItems_snapshot {db : DB} {oid : Nat} {pids : List Nat} {it : OrderItem}
    (h : it ∈ newItems db oid pids) :
    it.order_id = oid ∧
    ∃ p, getProduct db it.product_id = some p ∧ it.price = p.rental_price := by
  obtain ⟨pid, hpid, hg⟩ := List.mem_filterMap.mp h
  obtain ⟨p, hp, hit⟩ := Option.map_eq_some'.mp hg
  have hid : p.id = pid := by
    have := List.find?_some hp
    simpa [beq_iff_eq] using this
  subst hit
  exact ⟨rfl, p, by rw [hid]; exact hp, rfl⟩

/-! ## C6 -/

/-- C6: line-item prices are snapshots.  Editing a product rewrites only
the product row and leaves the order-item table unchanged, and every
line item inserted by a successful create_order carries the rental price
the referenced product row had at add time. -/
theorem C6_price_snapshot :
    (∀ (db : DB) (pid : Nat) (code name : String) (rp da : ℚ),
      (edit_product db pid code name rp da).orderItems = db.orderItems) ∧
    (∀ (db : DB) (f : OrderForm) (sid : Nat) (tx : String),
      (∀ pid ∈ f.product_ids,
        findConflict db pid f.delivery_date f.return_date = none) →
      (create_order db f sid tx).1.orderItems =
        db.orderItems ++ newItems db (freshOrderId db) f.product_ids ∧
      ∀ it ∈ newItems db (freshOrderId db) f.product_ids,
        ∃ p, getProduct db it.product_id = some p ∧ it.price = p.rental_price) := by
  constructor
  · intro db pid code name rp da
    unfold edit_product
    cases db.products.find? (·.id == pid) <;> rfl
  · intro db f sid tx h
    rw [create_order_success h]
    exact ⟨rfl, fun it hit => (newItems_snapshot hit).2⟩

/-- Concrete fixture: one product, one staff user, nothing booked. -/
def dbP : DB where
  users := [⟨1, "S", "staff"⟩]
  products := [⟨1, "P1", "Sherwani", 0, 0, true⟩]
  customers := []
  orders := []
  orderItems := []
  accessories := []
  extraCharges := []
  invoices := []

/-- Order form requesting product 1 for days 3..4. -/
def formP : OrderForm where
  customer_name := "C"
  customer_phone := "111"
  secondary_phone := ""
  customer_email := ""
  customer_address := ""
  delivery_date := 3
  return_date := 4
  notes := ""
  product_ids := [1]
  accessory_names := []
  extra_charges := []

/-- Witness for C6 at the concrete fixture. -/
theorem C6_price_snapshot_witness :
    (edit_product db10 1 "P9" "Renamed" 0 0).orderItems = db10.orderItems ∧
    ((create_order dbP formP 1 "TX").1.orderItems =
      dbP.orderItems ++ newItems dbP (freshOrderId dbP) formP.product_ids ∧
    ∀ it ∈ newItems dbP (freshOrderId dbP) formP.product_ids,
      ∃ p, getProduct dbP it.product_id = some p ∧ it.price = p.rental_price) :=
  ⟨C6_price_snapshot.1 db10 1 "P9" "Renamed" 0 0,
   C6_price_snapshot.2 dbP formP 1 "TX" (by decide)⟩


/-! ## C1 -/

/-- The three date clauses coincide with inclusive interval intersection
for well-formed ranges. -/
lemma datesClash_iff {o : Order} {d r : Int} (hdr : d ≤ r)
    (ho : o.delivery_date ≤ o.return_date) :
    datesClash o d r = true ↔ d ≤ o.return_date ∧ o.delivery_date ≤ r := by
  unfold datesClash
  simp only [Bool.or_eq_true, Bool.and_eq_true, decide_eq_true_eq, ge_iff_le]
  omega

/-- The conflict query finds a row exactly when some pending or approved
order holds an item for the product over an intersecting range. -/
lemma findConflict_isSome_iff {db : DB} {pid : Nat} {d r : Int} (hdr : d ≤ r)
    (hwf : ∀ o ∈ db.orders, o.delivery_date ≤ o.return_date) :
    (findConflict db pid d r).isSome = true ↔
      ∃ o ∈ db.orders, ∃ it ∈ db.orderItems,
        it.order_id = o.id ∧ it.product_id = pid ∧
        (o.status = "pending" ∨ o.status = "approved") ∧
        d ≤ o.return_date ∧ o.delivery_date ≤ r := by
  unfold findConflict
  rw [List.find?_isSome]
  constructor
  · rintro ⟨it, hit, hrow⟩
    unfold conflictRow at hrow
    rw [Bool.and_eq_true, List.any_eq_true] at hrow
    obtain ⟨hpid, o, ho, hor⟩ := hrow
    rw [Bool.and_eq_true, Bool.and_eq_true] at hor
    obtain ⟨⟨hoid, hst⟩, hcl⟩ := hor
    have hiv := (datesClash_iff hdr (hwf o ho)).mp hcl
    refine ⟨o, ho, it, hit, ?_, by simpa using hpid, ?_, hiv.1, hiv.2⟩
    · exact (beq_iff_eq.mp hoid).symm
    · unfold isActiveStatus at hst
      rw [Bool.or_eq_true, beq_iff_eq, beq_iff_eq] at hst
      exact hst
  · rintro ⟨o, ho, it, hit, h1, h2, h3, h4, h5⟩
    refine ⟨it, hit, ?_⟩
    unfold conflictRow
    rw [Bool.and_eq_true, List.any_eq_true]
    refine ⟨by simpa using h2, o, ho, ?_⟩
    rw [Bool.and_eq_true, Bool.and_eq_true]
    refine ⟨⟨by simpa using h1.symm, ?_⟩, (datesClash_iff hdr (hwf o ho)).mpr ⟨h4, h5⟩⟩
    unfold isActiveStatus
    rw [Bool.or_eq_true, beq_iff_eq, beq_iff_eq]
    exact h3

/-- C1: create_order is blocked (flashes a conflict and redirects)
exactly when some requested product is held by an existing pending or
approved order whose range [d2, r2] intersects the requested [d1, r1]
with inclusive bounds (d1 ≤ r2 and d2 ≤ r1); orders in any other status
(canceled, returned, completed, delivered, ...) never block, and the
three-clause disjunction of the code is equivalent to this intersection
condition for well-formed ranges. -/
theorem C1_create_order_blocks_iff_intersection (db : DB) (f : OrderForm)
    (sid : Nat) (tx : String) (hdr : f.delivery_date ≤ f.return_date)
    (hwf : ∀ o ∈ db.orders, o.delivery_date ≤ o.return_date) :
    (∃ m, (create_order db f sid tx).2 = .conflict m) ↔
      ∃ pid ∈ f.product_ids, ∃ o ∈ db.orders, ∃ it ∈ db.orderItems,
        it.order_id = o.id ∧ it.product_id = pid ∧
        (o.status = "pending" ∨ o.status = "approved") ∧
        f.delivery_date ≤ o.return_date ∧ o.delivery_date ≤ f.return_date := by
  constructor
  · rintro ⟨m, hm⟩
    by_cases h : ∀ pid ∈ f.product_ids,
        findConflict db pid f.delivery_date f.return_date = none
    · rw [create_order_success h] at hm
      cases hm
    · push_neg at h
      obtain ⟨pid, hmem, hne⟩ := h
      have hs : (findConflict db pid f.delivery_date f.return_date).isSome = true :=
        Option.ne_none_iff_isSome.mp hne
      exact ⟨pid, hmem, (findConflict_isSome_iff hdr hwf).mp hs⟩
  · rintro ⟨pid, hmem, hex⟩
    exact (create_order_conflict hmem
      ((findConflict_isSome_iff hdr hwf).mpr hex)).2

/-- Form that requests product 1 for days 5..6, overlapping the pending
booking of db10. -/
def formC : OrderForm where
  customer_name := "D"
  customer_phone := "222"
  secondary_phone := ""
  customer_email := ""
  customer_address := ""
  delivery_date := 5
  return_date := 6
  notes := ""
  product_ids := [1]
  accessory_names := []
  extra_charges := []

/-- Witness for C1 at the concrete database db10 and the overlapping
form formC. -/
theorem C1_create_order_blocks_iff_intersection_witness :
    (∃ m, (create_order db10 formC 1 "TX2").2 = .conflict m) ↔
      ∃ pid ∈ formC.product_ids, ∃ o ∈ db10.orders, ∃ it ∈ db10.orderItems,
        it.order_id = o.id ∧ it.product_id = pid ∧
        (o.status = "pending" ∨ o.status = "approved") ∧
        formC.delivery_date ≤ o.return_date ∧ o.delivery_date ≤ formC.return_date :=
  C1_create_order_blocks_iff_intersection db10 formC 1 "TX2" (by decide) (by decide)

/-! ## C5 -/

/-- C5: create_order is all-or-nothing under conflicts.  If any
requested product has a conflicting reservation, the handler stops with
the conflict flash and the database is exactly the input one: no
customer, order, item, accessory, extra charge or invoice row is
written. -/
theorem C5_conflict_aborts_with_no_writes (db : DB) (f : OrderForm) (sid : Nat)
    (tx : String) (pid : Nat) (hmem : pid ∈ f.product_ids)
    (hc : (findConflict db pid f.delivery_date f.return_date).isSome = true) :
    (create_order db f sid tx).1 = db ∧
    ∃ m, (create_order db f sid tx).2 = .conflict m :=
  create_order_conflict hmem hc

/-- Witness for C5: requesting the already-booked product 1 of db10
leaves the database untouched. -/
theorem C5_conflict_aborts_with_no_writes_witness :
    (create_order db10 formC 1 "TX2").1 = db10 ∧
    ∃ m, (create_order db10 formC 1 "TX2").2 = .conflict m :=
  C5_conflict_aborts_with_no_writes db10 formC 1 "TX2" 1 (by decide) (by decide)

/-! ## C4 -/

/-- Form with reversed dates: delivery on day 5, return on day 3. -/
def formR : OrderForm where
  customer_name := "C"
  customer_phone := "111"
  secondary_phone := ""
  customer_email := ""
  customer_address := ""
  delivery_date := 5
  return_date := 3
  notes := ""
  product_ids := [1]
  accessory_names := []
  extra_charges := []

/-- C4 counterexample: create_order performs no date-order validation.
With delivery_date 5 > return_date 3 and an otherwise empty database it
succeeds and writes an order row instead of failing with a
ValidationError and no writes. -/
theorem C4_counterexample :
    formR.delivery_date > formR.return_date ∧
    (create_order dbP formR 1 "TX").2 = .ok (freshOrderId dbP) ∧
    (create_order dbP formR 1 "TX").1.orders.length = dbP.orders.length + 1 := by
  refine ⟨by decide, ?_, ?_⟩
  · rw [create_order_success (by decide)]
  · rw [create_order_success (by decide)]
    simp

/-- C4 (amended): create_order never validates the date order.  Whenever
the conflict check passes, a request with delivery_date > return_date is
processed like any other: it returns ok and persists an order carrying
exactly the reversed dates. -/
theorem C4_no_date_validation (db : DB) (f : OrderForm) (sid : Nat) (tx : String)
    (hrev : f.delivery_date > f.return_date)
    (h : ∀ pid ∈ f.product_ids,
      findConflict db pid f.delivery_date f.return_date = none) :
    (create_order db f sid tx).2 = .ok (freshOrderId db) ∧
    ∃ o ∈ (create_order db f sid tx).1.orders,
      o.id = freshOrderId db ∧ o.delivery_date = f.delivery_date ∧
      o.return_date = f.return_date := by
  rw [create_order_success h]
  exact ⟨rfl, _, List.mem_append_right _ (List.mem_singleton_self _), rfl, rfl, rfl⟩

/-- Witness for the amended C4 at the concrete reversed-dates form. -/
theorem C4_no_date_validation_witness :
    (create_order dbP formR 1 "TX").2 = .ok (freshOrderId dbP) ∧
    ∃ o ∈ (create_order dbP formR 1 "TX").1.orders,
      o.id = freshOrderId dbP ∧ o.delivery_date = formR.delivery_date ∧
      o.return_date = formR.return_date :=
  C4_no_date_validation dbP formR 1 "TX" (by decide) (by decide)


/-! ## Helper lemmas for the total invariant -/

lemma productsTotal_go (db : DB) (oid : Nat) :
    ∀ (pids : List Nat) (a : ℚ),
      pids.foldl
        (fun t pid =>
          match getProduct db pid with
          | some p => t + p.rental_price
          | none => t) a
        = a + ((newItems db oid pids).map (·.price)).sum := by
  intro pids
  induction pids with
  | nil => intro a; simp [newItems]
  | cons pid rest ih =>
      intro a
      rw [List.foldl_cons]
      cases hg : getProduct db pid with
      | none =>
          have hskip : newItems db oid (pid :: rest) = newItems db oid rest := by
            unfold newItems
            rw [List.filterMap_cons, hg]
            rfl
          simp only [hg, hskip]
          exact ih a
      | some p =>
          have hcons : newItems db oid (pid :: rest) =
              ⟨oid, p.id, p.rental_price⟩ :: newItems db oid rest := by
            unfold newItems
            rw [List.filterMap_cons, hg]
            rfl
          simp only [hg, hcons, List.map_cons, List.sum_cons]
          rw [ih (a + p.rental_price)]
          ring

/-- The running product total equals the sum of the snapshotted prices
of the inserted line items. -/
lemma productsTotal_eq_sum (db : DB) (oid : Nat) (pids : List Nat) :
    productsTotal db pids = ((newItems db oid pids).map (·.price)).sum := by
  unfold productsTotal
  rw [productsTotal_go db oid]
  ring

lemma extrasTotal_go (oid : Nat) :
    ∀ (l : List (String × Option ℚ × String)) (a : ℚ),
      l.foldl
        (fun t e =>
          match e with
          | (desc, some amt, _) => if desc ≠ "" then t + amt else t
          | (_, none, _) => t) a
        = a + ((newExtras oid l).map (·.amount)).sum := by
  intro l
  induction l with
  | nil => intro a; simp [newExtras]
  | cons e rest ih =>
      intro a
      obtain ⟨desc, amt?, rem⟩ := e
      rw [List.foldl_cons]
      cases amt? with
      | none =>
          have hskip : newExtras oid ((desc, none, rem) :: rest) =
              newExtras oid rest := by
            unfold newExtras
            rw [List.filterMap_cons]
          rw [hskip]
          exact ih a
      | some amt =>
          show List.foldl _ (if desc ≠ "" then a + amt else a) rest = _
          by_cases hd : desc ≠ ""
          · have hcons : newExtras oid ((desc, some amt, rem) :: rest) =
                ⟨oid, desc, amt, rem⟩ :: newExtras oid rest := by
              simp [newExtras, List.filterMap_cons, hd]
            rw [if_pos hd, hcons, ih (a + amt)]
            simp only [List.map_cons, List.sum_cons]
            ring
          · have hd' : desc = "" := not_not.mp hd
            have hskip : newExtras oid ((desc, some amt, rem) :: rest) =
                newExtras oid rest := by
              simp [newExtras, List.filterMap_cons, hd']
            rw [if_neg hd, hskip]
            exact ih a

/-- The running extra-charge total equals the sum of the inserted
extra-charge amounts. -/
lemma extrasTotal_eq_sum (oid : Nat) (l : List (String × Option ℚ × String)) :
    extrasTotal l = ((newExtras oid l).map (·.amount)).sum := by
  unfold extrasTotal
  rw [extrasTotal_go oid]
  ring

/-- Every inserted extra charge belongs to the new order. -/
lemma newExtras_order_id {oid : Nat} {l : List (String × Option ℚ × String)}
    {e : OrderExtraCharge} (h : e ∈ newExtras oid l) : e.order_id = oid := by
  obtain ⟨x, hx, hg⟩ := List.mem_filterMap.mp h
  obtain ⟨desc, amt?, rem⟩ := x
  cases amt? with
  | none => cases hg
  | some amt =>
      change (if desc ≠ "" then some (⟨oid, desc, amt, rem⟩ : OrderExtraCharge)
        else none) = some e at hg
      by_cases hd : desc ≠ ""
      · rw [if_pos hd] at hg
        rw [← Option.some_inj.mp hg]
      · rw [if_neg hd] at hg
        cases hg

lemma find?_map_invariant {α : Type} (g : α → α) (p : α → Bool)
    (h : ∀ x, p (g x) = p x) :
    ∀ l : List α, (l.map g).find? p = (l.find? p).map g := by
  intro l
  induction l with
  | nil => rfl
  | cons x t ih =>
      by_cases hp : p x = true
      · rw [List.map_cons, List.find?_cons_of_pos _ ((h x).trans hp),
          List.find?_cons_of_pos _ hp]
        rfl
      · rw [List.map_cons, List.find?_cons_of_neg _ (by rw [h x]; exact hp),
          List.find?_cons_of_neg _ hp, ih]

/-- The order update of edit_order preserves the id test of every row. -/
lemma edit_update_pres (oid : Nat) (f : OrderForm) (total : ℚ) (o0 : Order) :
    ((if o0.id == oid then
        { o0 with
          delivery_date := f.delivery_date
          return_date := f.return_date
          notes := f.notes
          total_amount := total }
      else o0).id == oid) = (o0.id == oid) := by
  by_cases h : (o0.id == oid) = true
  · rw [if_pos h]
  · rw [if_neg h]

/-- One filter pass removes everything a previous complementary filter
kept out. -/
lemma filter_of_antifilter {l : List OrderItem} {oid : Nat} :
    (l.filter fun it => !(it.order_id == oid)).filter (·.order_id == oid) = [] := by
  rw [List.filter_eq_nil_iff]
  intro a ha
  have := (List.mem_filter.mp ha).2
  simp only [Bool.not_eq_true'] at this
  simp [this]

lemma filter_of_antifilter_extra {l : List OrderExtraCharge} {oid : Nat} :
    (l.filter fun e => !(e.order_id == oid)).filter (·.order_id == oid) = [] := by
  rw [List.filter_eq_nil_iff]
  intro a ha
  have := (List.mem_filter.mp ha).2
  simp only [Bool.not_eq_true'] at this
  simp [this]

/-- The freshly inserted items all pass the id filter. -/
lemma filter_newItems (db : DB) (oid : Nat) (pids : List Nat) :
    (newItems db oid pids).filter (·.order_id == oid) = newItems db oid pids :=
  List.filter_eq_self.mpr fun it hit => by
    simp [(newItems_snapshot hit).1]

lemma filter_newExtras (oid : Nat) (l : List (String × Option ℚ × String)) :
    (newExtras oid l).filter (·.order_id == oid) = newExtras oid l :=
  List.filter_eq_self.mpr fun e he => by
    simp [newExtras_order_id he]

/-- After a successful create_order the stored total of the new order is
the computed products-plus-extras total. -/
lemma storedTotal_create {db : DB} {f : OrderForm} {sid : Nat} {tx : String}
    (h : ∀ pid ∈ f.product_ids,
      findConflict db pid f.delivery_date f.return_date = none) :
    storedTotal (create_order db f sid tx).1 (freshOrderId db) =
      some (productsTotal db f.product_ids + extrasTotal f.extra_charges) := by
  rw [create_order_success h]
  unfold storedTotal
  show ((db.orders ++
      [(⟨freshOrderId db, tx, (upsertCustomer db f).1, sid, f.delivery_date,
        f.return_date, "pending",
        productsTotal db f.product_ids + extrasTotal f.extra_charges,
        f.notes⟩ : Order)]).find?
      (·.id == freshOrderId db)).map (·.total_amount) = _
  rw [List.find?_append, find?_freshOrderId db]
  rw [List.find?_cons_of_pos _ (by simp)]
  rfl

/-- Invariant after a successful create_order. -/
lemma create_order_invariant {db : DB} {f : OrderForm} {sid : Nat} {tx : String}
    (hwf : childrenWF db)
    (h : ∀ pid ∈ f.product_ids,
      findConflict db pid f.delivery_date f.return_date = none) :
    totalInvariant (create_order db f sid tx).1 (freshOrderId db) := by
  unfold totalInvariant
  rw [storedTotal_create h]
  have hitems : itemsFor (create_order db f sid tx).1 (freshOrderId db) =
      newItems db (freshOrderId db) f.product_ids := by
    rw [create_order_success h]
    unfold itemsFor
    show (db.orderItems ++ _).filter (·.order_id == freshOrderId db) = _
    rw [List.filter_append, filter_newItems]
    have hold : db.orderItems.filter (·.order_id == freshOrderId db) = [] := by
      rw [List.filter_eq_nil_iff]
      intro it hit
      obtain ⟨o, ho, hoid⟩ := hwf.1 it hit
      have := freshOrderId_gt ho
      simp only [beq_iff_eq]
      omega
    rw [hold, List.nil_append]
  have hextras : extrasFor (create_order db f sid tx).1 (freshOrderId db) =
      newExtras (freshOrderId db) f.extra_charges := by
    rw [create_order_success h]
    unfold extrasFor
    show (db.extraCharges ++ _).filter (·.order_id == freshOrderId db) = _
    rw [List.filter_append, filter_newExtras]
    have hold : db.extraCharges.filter (·.order_id == freshOrderId db) = [] := by
      rw [List.filter_eq_nil_iff]
      intro e he
      obtain ⟨o, ho, hoid⟩ := hwf.2 e he
      have := freshOrderId_gt ho
      simp only [beq_iff_eq]
      omega
    rw [hold, List.nil_append]
  rw [hitems, hextras, productsTotal_eq_sum db (freshOrderId db),
    extrasTotal_eq_sum (freshOrderId db)]

/-- Invariant after the admin edit_order. -/
lemma edit_order_invariant {db : DB} {oid : Nat} {f : OrderForm} {o : Order}
    (ho : db.orders.find? (·.id == oid) = some o) :
    totalInvariant (edit_order db oid f) oid := by
  have horders : (edit_order db oid f).orders =
      db.orders.map (fun o0 =>
        if o0.id == oid then
          { o0 with
            delivery_date := f.delivery_date
            return_date := f.return_date
            notes := f.notes
            total_amount := productsTotal db f.product_ids +
              extrasTotal f.extra_charges }
        else o0) := by
    unfold edit_order
    rw [ho]
  have hitems : (edit_order db oid f).orderItems =
      (db.orderItems.filter fun it => !(it.order_id == oid)) ++
        newItems db oid f.product_ids := by
    unfold edit_order
    rw [ho]
  have hextras : (edit_order db oid f).extraCharges =
      (db.extraCharges.filter fun e => !(e.order_id == oid)) ++
        newExtras oid f.extra_charges := by
    unfold edit_order
    rw [ho]
  unfold totalInvariant storedTotal itemsFor extrasFor
  rw [horders, hitems, hextras,
    find?_map_invariant _ _ (edit_update_pres oid f _) db.orders, ho]
  have hid : (o.id == oid) = true := by
    have := List.find?_some ho
    simpa using this
  simp only [Option.map_some']
  rw [if_pos hid]
  show some _ = some _
  rw [List.filter_append, List.filter_append, filter_of_antifilter,
    filter_of_antifilter_extra, filter_newItems, filter_newExtras,
    List.nil_append, List.nil_append,
    ← productsTotal_eq_sum db oid f.product_ids, ← extrasTotal_eq_sum oid f.extra_charges]

/-- Bumping the total while appending the matching item preserves the
invariant. -/
lemma totalInvariant_add_step {db : DB} {oid : Nat} (p : Product)
    (hP : totalInvariant db oid) :
    totalInvariant
      { db with
        orderItems := db.orderItems ++ [⟨oid, p.id, p.rental_price⟩]
        orders := db.orders.map fun o =>
          if o.id == oid then
            { o with total_amount := o.total_amount + p.rental_price }
          else o } oid := by
  unfold totalInvariant storedTotal itemsFor extrasFor at hP ⊢
  have hpres : ∀ o0 : Order,
      ((if o0.id == oid then
          { o0 with total_amount := o0.total_amount + p.rental_price }
        else o0).id == oid) = (o0.id == oid) := by
    intro o0
    by_cases h : (o0.id == oid) = true
    · rw [if_pos h]
    · rw [if_neg h]
  show ((db.orders.map (fun o0 =>
      if o0.id == oid then
        { o0 with total_amount := o0.total_amount + p.rental_price }
      else o0)).find? (·.id == oid)).map (·.total_amount) = _
  rw [find?_map_invariant _ _ hpres db.orders]
  cases hfo : db.orders.find? (·.id == oid) with
  | none => rw [hfo] at hP; cases hP
  | some o =>
      rw [hfo] at hP
      have hid : (o.id == oid) = true := by
        have := List.find?_some hfo
        simpa using this
      simp only [Option.map_some', Option.some_inj] at hP ⊢
      rw [if_pos hid]
      show o.total_amount + p.rental_price = _
      rw [List.filter_append]
      have hkeep : ([(⟨oid, p.id, p.rental_price⟩ : OrderItem)]).filter
          (·.order_id == oid) = [⟨oid, p.id, p.rental_price⟩] := by simp
      rw [hkeep, hP]
      simp only [List.map_append, List.sum_append, List.map_cons, List.map_nil,
        List.sum_cons, List.sum_nil]
      ring

/-- The product loop of add_products_to_order preserves the invariant. -/
lemma addProductsLoop_invariant {oid : Nat} {d r : Int} :
    ∀ (pids : List Nat) (db : DB) (msgs : List String) (db' : DB)
      (msgs' : List String),
      addProductsLoop oid d r pids db msgs = some (db', msgs') →
      totalInvariant db oid → totalInvariant db' oid := by
  intro pids
  induction pids with
  | nil =>
      intro db msgs db' msgs' h hP
      unfold addProductsLoop at h
      rw [Option.some_inj, Prod.mk.injEq] at h
      rw [← h.1]
      exact hP
  | cons pid rest ih =>
      intro db msgs db' msgs' h hP
      unfold addProductsLoop at h
      cases hf : findConflict db pid d r with
      | some existing =>
          rw [hf] at h
          simp only at h
          by_cases hne : existing.order_id ≠ oid
          · rw [if_pos hne] at h
            exact ih _ _ _ _ h hP
          · rw [if_neg hne] at h
            by_cases hdup : (db.orderItems.find? fun it =>
                it.order_id == oid && it.product_id == pid).isSome = true
            · rw [if_pos hdup] at h
              exact ih _ _ _ _ h hP
            · rw [if_neg hdup] at h
              cases hg : getProduct db pid with
              | none => rw [hg] at h; cases h
              | some p =>
                  rw [hg] at h
                  exact ih _ _ _ _ h (totalInvariant_add_step p hP)
      | none =>
          rw [hf] at h
          simp only at h
          by_cases hdup : (db.orderItems.find? fun it =>
              it.order_id == oid && it.product_id == pid).isSome = true
          · rw [if_pos hdup] at h
            exact ih _ _ _ _ h hP
          · rw [if_neg hdup] at h
            cases hg : getProduct db pid with
            | none => rw [hg] at h; cases h
            | some p =>
                rw [hg] at h
                exact ih _ _ _ _ h (totalInvariant_add_step p hP)


/-- Under the permission guards, the staff edit is exactly the admin
edit. -/
lemma staff_edit_order_eq {db : DB} {oid uid : Nat} {f : OrderForm} {o : Order}
    (ho : db.orders.find? (·.id == oid) = some o)
    (h1 : o.staff_id = uid) (h2 : staffRole db o.staff_id ≠ "admin")
    (h3 : o.status = "pending") :
    staff_edit_order db oid uid f = edit_order db oid f := by
  unfold staff_edit_order
  rw [ho]
  show (if o.staff_id ≠ uid then db
    else if staffRole db o.staff_id == "admin" then db
    else if o.status ≠ "pending" then db
    else edit_order db oid f) = edit_order db oid f
  rw [if_neg (by simp [h1]), if_neg (by simp [h2]), if_neg (by simp [h3])]

/-- The whole add_products_to_order handler preserves the invariant. -/
lemma add_products_invariant {db : DB} {oid uid : Nat} {urole : String}
    {pids : List Nat} {db' : DB} {msgs : List String}
    (h : add_products_to_order db oid uid urole pids = some (db', msgs))
    (hP : totalInvariant db oid) : totalInvariant db' oid := by
  unfold add_products_to_order at h
  split at h
  · rw [Option.some_inj, Prod.mk.injEq] at h
    rw [← h.1]
    exact hP
  · split at h
    · rw [Option.some_inj, Prod.mk.injEq] at h
      rw [← h.1]
      exact hP
    · split at h
      · rw [Option.some_inj, Prod.mk.injEq] at h
        rw [← h.1]
        exact hP
      · split at h
        · rw [Option.some_inj, Prod.mk.injEq] at h
          rw [← h.1]
          exact hP
        · exact addProductsLoop_invariant _ _ _ _ _ h hP

/-! ## C2 -/

/-- C2: after each successful order mutation the stored total equals the
sum of the line-item prices plus the extra-charge amounts (accessories
contribute nothing: they carry no amount at all); and the delivery and
return dates play no role in the total, so two creations differing only
in the date range store the same total. -/
theorem C2_total_amount_invariant :
    (∀ (db : DB) (f : OrderForm) (sid : Nat) (tx : String),
      childrenWF db →
      (∀ pid ∈ f.product_ids,
        findConflict db pid f.delivery_date f.return_date = none) →
      totalInvariant (create_order db f sid tx).1 (freshOrderId db)) ∧
    (∀ (db : DB) (oid : Nat) (f : OrderForm) (o : Order),
      db.orders.find? (·.id == oid) = some o →
      totalInvariant (edit_order db oid f) oid) ∧
    (∀ (db : DB) (oid uid : Nat) (f : OrderForm) (o : Order),
      db.orders.find? (·.id == oid) = some o →
      o.staff_id = uid → staffRole db o.staff_id ≠ "admin" →
      o.status = "pending" →
      totalInvariant (staff_edit_order db oid uid f) oid) ∧
    (∀ (db : DB) (oid uid : Nat) (urole : String) (pids : List Nat)
      (db' : DB) (msgs : List String),
      add_products_to_order db oid uid urole pids = some (db', msgs) →
      totalInvariant db oid → totalInvariant db' oid) ∧
    (∀ (db : DB) (f : OrderForm) (sid : Nat) (tx : String) (d1 r1 d2 r2 : Int),
      (∀ pid ∈ f.product_ids, findConflict db pid d1 r1 = none) →
      (∀ pid ∈ f.product_ids, findConflict db pid d2 r2 = none) →
      storedTotal
        (create_order db { f with delivery_date := d1, return_date := r1 } sid tx).1
        (freshOrderId db) =
      storedTotal
        (create_order db { f with delivery_date := d2, return_date := r2 } sid tx).1
        (freshOrderId db)) := by
  refine ⟨?_, ?_, ?_, ?_, ?_⟩
  · intro db f sid tx hwf h
    exact create_order_invariant hwf h
  · intro db oid f o ho
    exact edit_order_invariant ho
  · intro db oid uid f o ho h1 h2 h3
    rw [staff_edit_order_eq ho h1 h2 h3]
    exact edit_order_invariant ho
  · intro db oid uid urole pids db' msgs h hP
    exact add_products_invariant h hP
  · intro db f sid tx d1 r1 d2 r2 h1 h2
    rw [storedTotal_create h1, storedTotal_create h2]

/-- Witness for C2 at concrete fixtures: a fresh creation, an edit of
the booked order of db10, a staff edit under passing guards, an
add-products call that changes nothing, and two creations differing only
in dates. -/
theorem C2_total_amount_invariant_witness :
    totalInvariant (create_order dbP formP 1 "TX").1 (freshOrderId dbP) ∧
    totalInvariant (edit_order db10 1 formP) 1 ∧
    totalInvariant (staff_edit_order db10 1 1 formP) 1 ∧
    totalInvariant db10 1 ∧
    storedTotal
      (create_order dbP { formP with delivery_date := 7, return_date := 8 } 1 "TX").1
      (freshOrderId dbP) =
    storedTotal
      (create_order dbP { formP with delivery_date := 20, return_date := 21 } 1 "TX").1
      (freshOrderId dbP) := by
  have hP : totalInvariant db10 1 := by
    unfold totalInvariant storedTotal itemsFor extrasFor
    rw [show db10.orders.find? (·.id == 1) =
      some ⟨1, "TX1", 1, 1, 0, 10, "pending", 0, ""⟩ from by decide]
    rw [show db10.orderItems.filter (·.order_id == 1) = [⟨1, 1, 0⟩] from by decide]
    rw [show db10.extraCharges.filter (·.order_id == 1) = [] from by decide]
    simp
  refine ⟨C2_total_amount_invariant.1 dbP formP 1 "TX" (by decide) (by decide),
    C2_total_amount_invariant.2.1 db10 1 formP
      ⟨1, "TX1", 1, 1, 0, 10, "pending", 0, ""⟩ (by decide),
    C2_total_amount_invariant.2.2.1 db10 1 1 formP
      ⟨1, "TX1", 1, 1, 0, 10, "pending", 0, ""⟩ (by decide) rfl (by decide) rfl,
    C2_total_amount_invariant.2.2.2.1 db10 1 1 "staff" [] db10
      ["Products added successfully"] (by decide) hP,
    C2_total_amount_invariant.2.2.2.2 dbP formP 1 "TX" 7 8 20 21
      (by decide) (by decide)⟩


/-! ## C3 -/

/-- Concrete fixture for C3: product 1 is held by the pending order 1 of
another staff member over days 0..10; order 2 (staff 7, pending, days
5..6) is the one being extended; product 2 (price 20) is free. -/
def dbC : DB where
  users := [⟨7, "S", "staff"⟩, ⟨2, "T", "staff"⟩]
  products := [⟨1, "P1", "A", 0, 0, true⟩, ⟨2, "P2", "B", 20, 0, true⟩]
  customers := [⟨1, "C", "111", "", "", ""⟩]
  orders := [⟨1, "T1", 1, 2, 0, 10, "pending", 0, ""⟩,
             ⟨2, "T2", 1, 7, 5, 6, "pending", 0, ""⟩]
  orderItems := [⟨1, 1, 0⟩]
  accessories := []
  extraCharges := []
  invoices := []

/-- Expected state after asking to add products 1 and 2 to order 2 of
dbC: the conflicting product 1 is skipped, the item for product 2 is
inserted with its snapshotted price 20, and the order total is bumped. -/
def dbCafter : DB :=
  { dbC with
    orderItems := dbC.orderItems ++ [⟨2, 2, 20⟩]
    orders := dbC.orders.map fun o =>
      if o.id == 2 then { o with total_amount := o.total_amount + 20 } else o }

/-- A product whose conflict query returns a row of a different order is
skipped by the loop: its flash is appended and the remaining products
are processed against the unchanged state. -/
lemma addProductsLoop_skip_step {db : DB} {oid : Nat} {d r : Int} {pid : Nat}
    {rest : List Nat} {msgs : List String} {it : OrderItem} {p : Product}
    (hf : findConflict db pid d r = some it) (hne : it.order_id ≠ oid)
    (hp : getProduct db pid = some p) :
    addProductsLoop oid d r (pid :: rest) db msgs =
      addProductsLoop oid d r rest db
        (msgs ++ ["Product " ++ p.product_code ++ " is already booked!"]) := by
  simp only [addProductsLoop, hf]
  rw [if_pos hne]
  unfold productCode
  rw [hp]

/-- Every completed run of the loop ends with the success flash. -/
lemma addProductsLoop_success_suffix {oid : Nat} {d r : Int} :
    ∀ (pids : List Nat) (db : DB) (msgs : List String) (db' : DB)
      (msgs' : List String),
      addProductsLoop oid d r pids db msgs = some (db', msgs') →
      ∃ pre, msgs' = pre ++ ["Products added successfully"] := by
  intro pids
  induction pids with
  | nil =>
      intro db msgs db' msgs' h
      unfold addProductsLoop at h
      rw [Option.some_inj, Prod.mk.injEq] at h
      exact ⟨msgs, h.2.symm⟩
  | cons pid rest ih =>
      intro db msgs db' msgs' h
      unfold addProductsLoop at h
      cases hf : findConflict db pid d r with
      | some existing =>
          rw [hf] at h
          simp only at h
          by_cases hne : existing.order_id ≠ oid
          · rw [if_pos hne] at h
            exact ih _ _ _ _ h
          · rw [if_neg hne] at h
            by_cases hdup : (db.orderItems.find? fun it =>
                it.order_id == oid && it.product_id == pid).isSome = true
            · rw [if_pos hdup] at h
              exact ih _ _ _ _ h
            · rw [if_neg hdup] at h
              cases hg : getProduct db pid with
              | none => rw [hg] at h; cases h
              | some p =>
                  rw [hg] at h
                  exact ih _ _ _ _ h
      | none =>
          rw [hf] at h
          simp only at h
          by_cases hdup : (db.orderItems.find? fun it =>
              it.order_id == oid && it.product_id == pid).isSome = true
          · rw [if_pos hdup] at h
            exact ih _ _ _ _ h
          · rw [if_neg hdup] at h
            cases hg : getProduct db pid with
            | none => rw [hg] at h; cases h
            | some p =>
                rw [hg] at h
                exact ih _ _ _ _ h

/-- The flash list only accumulates: a run started with pending messages
is the run started empty with those messages prepended. -/
lemma addProductsLoop_msgs {oid : Nat} {d r : Int} :
    ∀ (pids : List Nat) (db : DB) (msgs : List String),
      addProductsLoop oid d r pids db msgs =
        (addProductsLoop oid d r pids db []).map fun x => (x.1, msgs ++ x.2) := by
  intro pids
  induction pids with
  | nil =>
      intro db msgs
      simp [addProductsLoop]
  | cons pid rest ih =>
      intro db msgs
      cases hf : findConflict db pid d r with
      | some existing =>
          simp only [addProductsLoop, hf]
          by_cases hne : existing.order_id ≠ oid
          · rw [if_pos hne, if_pos hne, List.nil_append,
              ih db (msgs ++ ["Product " ++ productCode db pid ++ " is already booked!"]),
              ih db ["Product " ++ productCode db pid ++ " is already booked!"]]
            cases addProductsLoop oid d r rest db [] <;>
              simp [List.append_assoc]
          · rw [if_neg hne, if_neg hne]
            by_cases hdup : (db.orderItems.find? fun it =>
                it.order_id == oid && it.product_id == pid).isSome = true
            · rw [if_pos hdup, if_pos hdup]
              exact ih db msgs
            · rw [if_neg hdup, if_neg hdup]
              cases hg : getProduct db pid with
              | none => simp [hg]
              | some p =>
                  simp only [hg]
                  exact ih _ msgs
      | none =>
          simp only [addProductsLoop, hf]
          by_cases hdup : (db.orderItems.find? fun it =>
              it.order_id == oid && it.product_id == pid).isSome = true
          · rw [if_pos hdup, if_pos hdup]
            exact ih db msgs
          · rw [if_neg hdup, if_neg hdup]
            cases hg : getProduct db pid with
            | none => simp [hg]
            | some p =>
                simp only [hg]
                exact ih _ msgs

/-- When the target order exists and every permission guard passes, the
handler is exactly the product loop over the order dates. -/
lemma add_products_pending {db : DB} {oid uid : Nat} {urole : String} {o : Order}
    (ho : db.orders.find? (·.id == oid) = some o)
    (h1 : urole = "staff" → o.staff_id = uid)
    (h2 : urole = "staff" → staffRole db o.staff_id ≠ "admin")
    (h3 : o.status = "pending") (pids : List Nat) :
    add_products_to_order db oid uid urole pids =
      addProductsLoop oid o.delivery_date o.return_date pids db [] := by
  unfold add_products_to_order
  rw [ho]
  show (if urole == "staff" && o.staff_id != uid then
      some (db, ["You can only modify orders you created!"])
    else if urole == "staff" && staffRole db o.staff_id == "admin" then
      some (db, ["You cannot modify admin orders!"])
    else if o.status != "pending" then
      some (db, ["Cannot modify approved orders"])
    else addProductsLoop oid o.delivery_date o.return_date pids db []) = _
  rw [if_neg ?hg1, if_neg ?hg2, if_neg ?hg3]
  case hg1 =>
    simp only [Bool.and_eq_true, beq_iff_eq, bne_iff_ne]
    rintro ⟨hu, hs⟩
    exact hs (h1 hu)
  case hg2 =>
    simp only [Bool.and_eq_true, beq_iff_eq]
    rintro ⟨hu, hr⟩
    exact h2 hu hr
  case hg3 =>
    simp [h3]

/-- C3 counterexample: asking to add products 1 and 2 to order 2 hits a
conflict on product 1, yet the mutation is not rolled back.  The handler
flashes the conflict, still inserts the line item for product 2, bumps
the stored total from 0 to 20, and commits with a success flash: a
partial success with new line items and a changed total_amount. -/
theorem C3_counterexample :
    add_products_to_order dbC 2 7 "staff" [1, 2] =
      some (dbCafter,
        ["Product P1 is already booked!", "Products added successfully"]) ∧
    dbCafter.orderItems = dbC.orderItems ++ [⟨2, 2, 20⟩] ∧
    storedTotal dbC 2 = some 0 ∧
    storedTotal dbCafter 2 = some 20 := by
  refine ⟨?_, rfl, by decide, ?_⟩
  · rw [add_products_pending (o := ⟨2, "T2", 1, 7, 5, 6, "pending", 0, ""⟩)
      (by decide) (fun _ => rfl) (fun _ => by decide) rfl [1, 2]]
    rw [@addProductsLoop_skip_step dbC 2 5 6 1 [2] []
      ⟨1, 1, 0⟩ ⟨1, "P1", "A", 0, 0, true⟩ (by decide) (by decide) (by decide)]
    simp only [addProductsLoop,
      show findConflict dbC 2 5 6 = none from by decide,
      show (dbC.orderItems.find? fun it =>
        it.order_id == 2 && it.product_id == 2) = none from by decide,
      show getProduct dbC 2 = some ⟨2, "P2", "B", 20, 0, true⟩ from by decide,
      Option.isSome_none, Bool.false_eq_true, if_false]
    rfl
  · show ((dbCafter.orders.find? (·.id == 2)).map (·.total_amount)) = some 20
    rw [show dbCafter.orders.find? (·.id == 2) =
      some ⟨2, "T2", 1, 7, 5, 6, "pending", (0 : ℚ) + 20, ""⟩ from by
        unfold dbCafter dbC
        rfl]
    simp only [Option.map_some']
    norm_num

/-- C3 (amended): a conflict does not roll the mutation back.  With the
target order loaded and the permission guards passing, a requested
product held by a different pending or approved order is skipped: the
call returns exactly what the call without that product returns, with a
flash naming the product code prepended; and every completed call
commits and ends its flashes with "Products added successfully",
whatever conflicts were skipped on the way - a partial success rather
than all-or-nothing. -/
theorem C3_conflict_skips_product_only :
    (∀ (db : DB) (oid uid : Nat) (urole : String) (pid : Nat) (rest : List Nat)
      (o : Order) (it : OrderItem) (p : Product),
      db.orders.find? (·.id == oid) = some o →
      (urole = "staff" → o.staff_id = uid) →
      (urole = "staff" → staffRole db o.staff_id ≠ "admin") →
      o.status = "pending" →
      findConflict db pid o.delivery_date o.return_date = some it →
      it.order_id ≠ oid →
      getProduct db pid = some p →
      add_products_to_order db oid uid urole (pid :: rest) =
        (add_products_to_order db oid uid urole rest).map
          (fun x => (x.1,
            ("Product " ++ p.product_code ++ " is already booked!") :: x.2))) ∧
    (∀ (db : DB) (oid uid : Nat) (urole : String) (pids : List Nat) (o : Order)
      (db' : DB) (msgs' : List String),
      db.orders.find? (·.id == oid) = some o →
      (urole = "staff" → o.staff_id = uid) →
      (urole = "staff" → staffRole db o.staff_id ≠ "admin") →
      o.status = "pending" →
      add_products_to_order db oid uid urole pids = some (db', msgs') →
      ∃ pre, msgs' = pre ++ ["Products added successfully"]) := by
  constructor
  · intro db oid uid urole pid rest o it p ho h1 h2 h3 hf hne hp
    rw [add_products_pending ho h1 h2 h3 (pid :: rest),
      add_products_pending ho h1 h2 h3 rest,
      addProductsLoop_skip_step hf hne hp,
      addProductsLoop_msgs rest db
        ([] ++ ["Product " ++ p.product_code ++ " is already booked!"])]
    cases addProductsLoop oid o.delivery_date o.return_date rest db [] <;> simp
  · intro db oid uid urole pids o db' msgs' ho h1 h2 h3 h
    rw [add_products_pending ho h1 h2 h3 pids] at h
    exact addProductsLoop_success_suffix _ _ _ _ _ h

/-- Witness for the amended C3 at the concrete fixture: the conflicting
product 1 is skipped with its flash in front of the result of the call
without it, and a call consisting only of the conflicting product still
returns the success flash after the conflict flash. -/
theorem C3_conflict_skips_product_only_witness :
    add_products_to_order dbC 2 7 "staff" (1 :: [2]) =
      (add_products_to_order dbC 2 7 "staff" [2]).map
        (fun x => (x.1, ("Product " ++ "P1" ++ " is already booked!") :: x.2)) ∧
    ∃ pre, ["Product P1 is already booked!", "Products added successfully"] =
      pre ++ ["Products added successfully"] :=
  ⟨C3_conflict_skips_product_only.1 dbC 2 7 "staff" 1 [2]
      ⟨2, "T2", 1, 7, 5, 6, "pending", 0, ""⟩ ⟨1, 1, 0⟩ ⟨1, "P1", "A", 0, 0, true⟩
      (by decide) (fun _ => rfl) (fun _ => by decide) rfl
      (by decide) (by decide) (by decide),
   C3_conflict_skips_product_only.2 dbC 2 7 "staff" [1]
      ⟨2, "T2", 1, 7, 5, 6, "pending", 0, ""⟩ dbC
      ["Product P1 is already booked!", "Products added successfully"]
      (by decide) (fun _ => rfl) (fun _ => by decide) rfl (by decide)⟩

end Neraa
